import Mathlib

/-!
Verification of the time-series anomaly-callout engine
(`src/components/datatable_callout.py`, class `CalloutSystem`) of the
life-tracker repository.

Modelling conventions:
* A dataframe row carries the `KEY` column (a natural number), the `DATE`
  column (an integer day number — only order and day arithmetic matter), and
  the single numeric target metric column, as an exact rational.
* `pandas` `NaN` cells are modelled by `Option`: `none` is `NaN`.  Any
  comparison against a `none` cell is false, exactly as IEEE comparisons
  against `NaN` are false.
* The rolling standard-deviation column is carried as the *variance* (the
  square of what the Python code stores), so every definition stays inside
  the rationals and is executable.  Comparisons of the form
  `value > mean + threshold * std` are encoded in an equivalent squared form
  and proved equivalent to the real-valued comparison with `Real.sqrt`
  (see the theorem for claim C2).
* Exceptions (`ValueError`, missing-column `KeyError`) are modelled with
  `Except String`; a raised exception leaves the object state unchanged,
  which matches the Python code because every `raise` fires before any
  assignment to `self.callouts_df`.
* The decimal digit rendering of numbers inside display strings
  (`:.1f` / `:.0f` / `:.2f`, `round(_, 2)`, float `sqrt`) is abstracted by
  exact rational arithmetic (`toString`, `Rat.sqrt`, half-up rounding); no
  verified property depends on the rendered digits, only on branch structure
  and on the presence or absence of fields.
-/

namespace LifeTracker

/-- A row of the grouped input table `df_grouped`: its `KEY`, its `DATE`, and
the numeric target metric column. -/
structure Row where
  key : Nat
  date : Int
  value : Rat
  deriving Repr, DecidableEq

/-- The last `w` elements of a list: the trailing window that
`rolling(window=w, min_periods=1)` uses once at least one observation exists. -/
def lastN (w : Nat) (l : List Rat) : List Rat := l.drop (l.length - w)

/-- Arithmetic mean of a window, as computed by `rolling(...).mean()`. -/
def meanList (l : List Rat) : Rat := l.sum / (l.length : Rat)

/-- Sample variance of a window: `Σ (x - mean)² / (n - 1)` (pandas `std` uses
`ddof = 1`); this is the square of the value `rolling(...).std()` stores.
`none` models the `NaN` pandas produces on windows of fewer than two rows. -/
def sampleVar (l : List Rat) : Option Rat :=
  if l.length ≤ 1 then none
  else some ((l.map (fun x => (x - meanList l) ^ 2)).sum / ((l.length : Rat) - 1))

/-- Mean together with sample variance of a window. -/
def statsOf (l : List Rat) : Rat × Option Rat := (meanList l, sampleVar l)

/-- Metric values of the rows with key `k` among the first `i+1` rows, in
input order: `groupby('KEY')` partitions by key but keeps each group's rows in
the original row order — it performs no sort by date. -/
def keyValsUpTo (L : List Row) (k : Nat) (i : Nat) : List Rat :=
  ((L.take (i + 1)).filter (fun r => r.key == k)).map Row.value

/-- Rolling mean and variance that
`groupby('KEY')[col].rolling(window, min_periods=1)` assigns to row `i` after
`reset_index(0, drop=True)` re-aligns the result with the original row index. -/
def rollingAt (L : List Row) (w : Nat) (i : Nat) : Rat × Option Rat :=
  match L[i]? with
  | some r => statsOf (lastN w (keyValsUpTo L r.key i))
  | none => (0, none)

/-- The two derived columns, one entry per row of the frame. -/
def rollingStatsList (L : List Row) (w : Nat) : List (Rat × Option Rat) :=
  (List.range L.length).map (rollingAt L w)

/-- The dataframe `self.df_grouped`: the raw rows plus the two derived columns
`{col}_7_day_avg` and `{col}_7_day_std_dev` once `calculate_rolling_stats`
has produced them (`none` before that).  The std-dev column is stored
cell-wise as the variance (std²), with `none` for `NaN` cells. -/
structure Frame where
  rows : List Row
  avgCol : Option (List Rat)
  stdSqCol : Option (List (Option Rat))
  deriving Repr, DecidableEq

/-- `CalloutSystem.calculate_rolling_stats`: write the rolling mean and the
rolling standard-deviation column for the target metric, computed per key over
a trailing window taken in input order within each key (`window` defaults to 7
in the source). -/
def calculate_rolling_stats (F : Frame) (window : Nat) : Frame :=
  { rows := F.rows
    avgCol := some ((rollingStatsList F.rows window).map Prod.fst)
    stdSqCol := some ((rollingStatsList F.rows window).map Prod.snd) }

/-- A record of `callouts_df`.  `std_devs_away` is `none` (`NaN`) on records
produced by the absolute-threshold check. -/
structure Callout where
  key : Nat
  date : Int
  check : String
  condition : String
  more_info : String
  value : String
  std_devs_away : Option Rat
  deriving Repr, DecidableEq

/-- `self.callouts_df`: its column list (the schema, fixed at construction)
and its accumulated rows. -/
structure CalloutsDf where
  columns : List String
  rows : List Callout
  deriving Repr, DecidableEq

/-- The columns installed by `_initialize_callouts_df`. -/
def initColumns : List String :=
  ["key", "date", "check", "condition", "more_info", "value", "std_devs_away"]

/-- `CalloutSystem._initialize_callouts_df`: empty frame with the seven
columns. -/
def _initialize_callouts_df : CalloutsDf := CalloutsDf.mk initColumns []

/-- Column union as performed by `pd.concat`: the existing columns, then any
new column not already present. -/
def unionCols (a b : List String) : List String :=
  a ++ b.filter (fun c => !(a.contains c))

/-- Columns of the record dicts built by `check_condition_in_column`
(no `std_devs_away` key). -/
def condColumns : List String :=
  ["key", "date", "check", "condition", "more_info", "value"]

/-- The whole `CalloutSystem` object: `self.df_grouped` and
`self.callouts_df`. -/
structure State where
  df_grouped : Frame
  callouts_df : CalloutsDf
  deriving Repr, DecidableEq

/-- `CalloutSystem.__init__`: store the grouped frame and initialize the
callouts dataframe. -/
def CalloutSystem (rows : List Row) : State :=
  State.mk (Frame.mk rows none none) _initialize_callouts_df

/-- `target_column.replace("_", " ").lower()` as used in the display strings. -/
def colText (col : String) : String := (col.replace "_" " ").toLower

/-- `CalloutSystem.format_number`: magnitude-suffix rendering.  The branch
structure and suffixes match the source; the `:.1f` / `:.0f` / `:.2f` digit
rounding is abstracted by `toString` of the exact rational. -/
def format_number (value : Rat) : String :=
  if 1000000 ≤ value then toString (value / 1000000) ++ "M"
  else if 1000 ≤ value then toString (value / 1000) ++ "K"
  else if 1 ≤ value then toString value
  else toString value

/-- Row-selection test of `check_spike_in_column`:
`value > mean + threshold * std` where `std = √var`, and a `NaN` std (window
of fewer than two rows) compares false.  Encoded in the equivalent squared
form to stay rational; claim C2's theorem proves it equal to the real-valued
comparison with `Real.sqrt`. -/
def spikeCond (v mean : Rat) (var : Option Rat) (t : Rat) : Bool :=
  match var with
  | none => false
  | some s => decide (mean < v) && decide (t ^ 2 * s < (v - mean) ^ 2)

/-- Row-selection test of `check_drop_in_column`:
`value < mean - threshold * std`, same conventions as `spikeCond`. -/
def dropCond (v mean : Rat) (var : Option Rat) (t : Rat) : Bool :=
  match var with
  | none => false
  | some s => decide (v < mean) && decide (t ^ 2 * s < (mean - v) ^ 2)

/-- `round(x, 2)` (digit-level tie-breaking abstracted to half-up). -/
def roundTo2 (q : Rat) : Rat := ((round (q * 100) : Int) : Rat) / 100

/-- `round((value - avg) / std, 2)`; the float square root is abstracted by
the rational approximation `Rat.sqrt`.  No verified property reads this
number — only the presence of the field matters. -/
def stdDevsAway (v mean s : Rat) : Rat := roundTo2 ((v - mean) / Rat.sqrt s)

/-- The record dict built for one spiking row (the `lambda` body in
`check_spike_in_column`); `p` carries the row with its aligned derived cells. -/
def mkSpikeCallout (col : String) (t : Rat) (p : Row × (Rat × Option Rat)) : Callout :=
  { key := p.1.key
    date := p.1.date
    check := "Spike in " ++ colText col
    condition := "> " ++ toString t ++ " standard deviation from L7 average " ++ colText col
    more_info := toString p.1.value ++ " > " ++
      format_number (p.2.1 + t * Rat.sqrt ((p.2.2).getD 0)) ++ " (L7 avg: " ++
      format_number p.2.1 ++ ", L7 std dev: " ++
      format_number (Rat.sqrt ((p.2.2).getD 0)) ++ ")"
    value := toString p.1.value
    std_devs_away := some (stdDevsAway p.1.value p.2.1 ((p.2.2).getD 0)) }

/-- The record dict built for one dropping row (the `lambda` body in
`check_drop_in_column`). -/
def mkDropCallout (col : String) (t : Rat) (p : Row × (Rat × Option Rat)) : Callout :=
  { key := p.1.key
    date := p.1.date
    check := "Drop in " ++ colText col
    condition := "< " ++ toString t ++ " standard deviation from L7 average " ++ colText col
    more_info := toString p.1.value ++ " < " ++
      format_number (p.2.1 - t * Rat.sqrt ((p.2.2).getD 0)) ++ " (L7 avg: " ++
      format_number p.2.1 ++ ", L7 std dev: " ++
      format_number (Rat.sqrt ((p.2.2).getD 0)) ++ ")"
    value := toString p.1.value
    std_devs_away := some (stdDevsAway p.1.value p.2.1 ((p.2.2).getD 0)) }

/-- The record dict built for one row violating the absolute threshold (the
`lambda` body in `check_condition_in_column`): note there is no
`std_devs_away` key. -/
def mkCondCallout (col condText : String) (r : Row) : Callout :=
  { key := r.key
    date := r.date
    check := colText col ++ " " ++ condText
    condition := colText col ++ " " ++ condText
    more_info := "Current value: " ++ format_number r.value
    value := toString r.value
    std_devs_away := none }

/-- Each raw row paired with its aligned derived cells, the row-wise view the
boolean masks in the check methods take of the dataframe; `none` when the
derived columns have not been computed (reading them would be a `KeyError`). -/
def statPairs (F : Frame) : Option (List (Row × (Rat × Option Rat))) :=
  match F.avgCol, F.stdSqCol with
  | some av, some sv => some (F.rows.zip (av.zip sv))
  | _, _ => none

/-- `CalloutSystem.check_spike_in_column`: filter the rows above
`avg + threshold * std` and append their callout records. -/
def check_spike_in_column (st : State) (col : String) (t : Rat) :
    Except String State :=
  match statPairs st.df_grouped with
  | none => Except.error "KeyError: rolling stats not computed"
  | some ps =>
      Except.ok
        { st with
          callouts_df := CalloutsDf.mk
            (unionCols st.callouts_df.columns initColumns)
            (st.callouts_df.rows ++
              ((ps.filter (fun p => spikeCond p.1.value p.2.1 p.2.2 t)).map
                (mkSpikeCallout col t))) }

/-- `CalloutSystem.check_drop_in_column`: filter the rows below
`avg - threshold * std` and append their callout records. -/
def check_drop_in_column (st : State) (col : String) (t : Rat) :
    Except String State :=
  match statPairs st.df_grouped with
  | none => Except.error "KeyError: rolling stats not computed"
  | some ps =>
      Except.ok
        { st with
          callouts_df := CalloutsDf.mk
            (unionCols st.callouts_df.columns initColumns)
            (st.callouts_df.rows ++
              ((ps.filter (fun p => dropCond p.1.value p.2.1 p.2.2 t)).map
                (mkDropCallout col t))) }

/-- `CalloutSystem.check_condition_in_column`: absolute-threshold check; the
operator must be the string `>` or `<`, otherwise a `ValueError` is raised
(before any state change). -/
def check_condition_in_column (st : State) (col : String) (condition : String)
    (threshold : Rat) : Except String State :=
  if condition = ">" then
    Except.ok
      { st with
        callouts_df := CalloutsDf.mk
          (unionCols st.callouts_df.columns condColumns)
          (st.callouts_df.rows ++
            ((st.df_grouped.rows.filter (fun r => decide (threshold < r.value))).map
              (mkCondCallout col ("> " ++ format_number threshold)))) }
  else if condition = "<" then
    Except.ok
      { st with
        callouts_df := CalloutsDf.mk
          (unionCols st.callouts_df.columns condColumns)
          (st.callouts_df.rows ++
            ((st.df_grouped.rows.filter (fun r => decide (r.value < threshold))).map
              (mkCondCallout col ("< " ++ format_number threshold)))) }
  else Except.error "Condition must be either > or <."

/-- `CalloutSystem.filter_last_week`: keep the callouts dated within the last
seven days excluding today; `datetime.now().date()` is passed explicitly as
`today`. -/
def filter_last_week (st : State) (today : Int) : State :=
  { st with
    callouts_df := CalloutsDf.mk st.callouts_df.columns
      (st.callouts_df.rows.filter
        (fun c => decide (today - 7 ≤ c.date) && decide (c.date ≤ today - 1))) }

/-- `CalloutSystem.add_buffer_days`: keep the callouts dated within the week
that ended `buffer_days` days ago (`buffer_days` defaults to 3 in the
source); `datetime.now().date()` is passed explicitly as `today`. -/
def add_buffer_days (st : State) (today : Int) (buffer_days : Int) : State :=
  { st with
    callouts_df := CalloutsDf.mk st.callouts_df.columns
      (st.callouts_df.rows.filter
        (fun c => decide (today - (buffer_days + 7) ≤ c.date) &&
          decide (c.date ≤ today - buffer_days))) }

/-- Ascending comparison on the `std_devs_away` column with `NaN` (`none`)
placed last, as `sort_values` does with the default `na_position='last'`. -/
def devLe (a b : Option Rat) : Bool :=
  match a, b with
  | some x, some y => decide (x ≤ y)
  | some _, none => true
  | none, some _ => false
  | none, none => true

/-- The comparison realised by
`sort_values(['date', 'std_devs_away'], ascending=[False, True])`:
date descending, then `std_devs_away` ascending. -/
def calloutLe (a b : Callout) : Bool :=
  decide (b.date < a.date) || (decide (a.date = b.date) && devLe a.std_devs_away b.std_devs_away)

/-- The comparison realised by `sort_values('date', ascending=False)`. -/
def dateDescLe (a b : Callout) : Bool := decide (b.date ≤ a.date)

/-- `calloutLe` as a relation, for the sorting lemmas. -/
def CalloutR (a b : Callout) : Prop := calloutLe a b = true

instance : DecidableRel CalloutR := fun a b =>
  inferInstanceAs (Decidable (calloutLe a b = true))

/-- `dateDescLe` as a relation. -/
def DateDescR (a b : Callout) : Prop := dateDescLe a b = true

instance : DecidableRel DateDescR := fun a b =>
  inferInstanceAs (Decidable (dateDescLe a b = true))

/-- `CalloutSystem.get_callouts`: dispatch on the columns present, sort, and
return the callouts dataframe.  Sorting is modelled by the stable
`insertionSort`; ordering of full ties is unspecified in the source
(`sort_values` default kind).  The `metric` branch sorts by a column that the
reachable record shape never carries (claim C10 proves the branch
unreachable), so it is modelled as the identity on the rows. -/
def get_callouts (c : CalloutsDf) : CalloutsDf :=
  if "date" ∈ c.columns then
    if "std_devs_away" ∈ c.columns then
      CalloutsDf.mk c.columns (List.insertionSort CalloutR c.rows)
    else CalloutsDf.mk c.columns (List.insertionSort DateDescR c.rows)
  else if "metric" ∈ c.columns then c
  else c

/-- One public operation of the class.  `calcRolling`'s column argument is the
single modelled metric; filters take `today` explicitly. -/
inductive Op where
  | calcRolling (w : Nat)
  | spike (col : String) (t : Rat)
  | drop (col : String) (t : Rat)
  | cond (col : String) (c : String) (t : Rat)
  | lastWeek (today : Int)
  | buffer (today : Int) (b : Int)

/-- Run one operation; a raised exception leaves the object unchanged (in the
source every `raise` fires before any assignment to the object state). -/
def runOp (st : State) (op : Op) : State :=
  match op with
  | Op.calcRolling w => { st with df_grouped := calculate_rolling_stats st.df_grouped w }
  | Op.spike col t =>
      match check_spike_in_column st col t with
      | Except.ok s => s
      | Except.error _ => st
  | Op.drop col t =>
      match check_drop_in_column st col t with
      | Except.ok s => s
      | Except.error _ => st
  | Op.cond col c t =>
      match check_condition_in_column st col c t with
      | Except.ok s => s
      | Except.error _ => st
  | Op.lastWeek today => filter_last_week st today
  | Op.buffer today b => add_buffer_days st today b

/-- Run a sequence of public operations. -/
def runOps (st : State) (ops : List Op) : State := ops.foldl runOp st

/-- The derived cells (rolling mean, rolling std²) that
`calculate_rolling_stats` attaches to the rows of key `k`, in row order. -/
def keyStats (F : Frame) (w : Nat) (k : Nat) : List (Rat × Option Rat) :=
  ((( calculate_rolling_stats F w).rows.zip
      ((((calculate_rolling_stats F w).avgCol).getD []).zip
        (((calculate_rolling_stats F w).stdSqCol).getD []))).filter
    (fun p => p.1.key == k)).map Prod.snd

/-- Rolling trailing-window statistics of a bare value sequence: entry `n` is
the mean/variance of the last `w` of the first `n+1` values. -/
def statsSeq (vals : List Rat) (w : Nat) : List (Rat × Option Rat) :=
  (List.range vals.length).map (fun n => statsOf (lastN w (vals.take (n + 1))))

/-- Each key's rows arrive in strictly increasing date order — the
discipline the repository's caller establishes with
`df_grouped.sort_values(by=['KEY', 'DATE'])` before handing the frame to
`CalloutSystem`. -/
def DateSortedPerKey (L : List Row) : Prop :=
  List.Pairwise (fun a b => a.key = b.key → a.date < b.date) L

/-- The rows of key `k` dated no later than `d`, in input order. -/
def dateLeRows (L : List Row) (k : Nat) (d : Int) : List Row :=
  L.filter (fun x => x.key == k && decide (x.date ≤ d))

section Lemmas

theorem rollingStatsList_length (L : List Row) (w : Nat) :
    (rollingStatsList L w).length = L.length := by
  simp [rollingStatsList]

theorem rollingAt_append_lt (M : List Row) (r : Row) (w i : Nat) (h : i < M.length) :
    rollingAt (M ++ [r]) w i = rollingAt M w i := by
  unfold rollingAt
  rw [List.getElem?_append_left h]
  cases hM : M[i]? with
  | none => rfl
  | some x =>
      unfold keyValsUpTo
      rw [List.take_append_of_le_length (by omega)]

theorem keyValsUpTo_append_last (M : List Row) (r : Row) (k : Nat) :
    keyValsUpTo (M ++ [r]) k M.length =
      ((M ++ [r]).filter (fun x => x.key == k)).map Row.value := by
  unfold keyValsUpTo
  rw [List.take_of_length_le (by simp)]

theorem rollingStatsList_append (M : List Row) (r : Row) (w : Nat) :
    rollingStatsList (M ++ [r]) w =
      rollingStatsList M w ++ [rollingAt (M ++ [r]) w M.length] := by
  unfold rollingStatsList
  rw [List.length_append, List.length_singleton, List.range_succ, List.map_append]
  simp only [List.map_cons, List.map_nil]
  congr 1
  apply List.map_congr_left
  intro i hi
  exact rollingAt_append_lt M r w i (List.mem_range.mp hi)

theorem statsSeq_append (vals : List Rat) (v : Rat) (w : Nat) :
    statsSeq (vals ++ [v]) w = statsSeq vals w ++ [statsOf (lastN w (vals ++ [v]))] := by
  unfold statsSeq
  rw [List.length_append, List.length_singleton, List.range_succ, List.map_append]
  congr 1
  · apply List.map_congr_left
    intro n hn
    have hn' := List.mem_range.mp hn
    rw [List.take_append_of_le_length (by omega)]
  · rw [List.map_singleton, List.take_of_length_le (by simp)]

theorem keyStatsList_eq (L : List Row) (w k : Nat) :
    ((L.zip (rollingStatsList L w)).filter (fun p => p.1.key == k)).map Prod.snd
      = statsSeq ((L.filter (fun r => r.key == k)).map Row.value) w := by
  induction L using List.reverseRecOn with
  | nil => rfl
  | append_singleton M r IH =>
      have hs : rollingAt (M ++ [r]) w M.length
          = statsOf (lastN w (((M ++ [r]).filter (fun x => x.key == r.key)).map Row.value)) := by
        unfold rollingAt
        rw [List.getElem?_concat_length]
        dsimp only
        rw [keyValsUpTo_append_last]
      rw [rollingStatsList_append, List.zip_append (rollingStatsList_length M w).symm]
      have hz : List.zip [r] [rollingAt (M ++ [r]) w M.length]
          = [(r, rollingAt (M ++ [r]) w M.length)] := rfl
      rw [List.filter_append, List.map_append, IH, hz, List.filter_append]
      by_cases hk : r.key = k
      · subst hk
        have h1 : List.filter (fun x => x.key == r.key) [r] = [r] := by simp
        have h3 : List.filter (fun p : Row × (Rat × Option Rat) => p.1.key == r.key)
            [(r, rollingAt (M ++ [r]) w M.length)]
            = [(r, rollingAt (M ++ [r]) w M.length)] := by simp
        rw [h1, h3, List.map_append, List.map_singleton, List.map_singleton, statsSeq_append]
        rw [hs]
        congr 2
        rw [List.filter_append, List.map_append, h1, List.map_singleton]
      · have hk' : (r.key == k) = false := by simp [hk]
        have h1 : List.filter (fun x => x.key == k) [r] = [] := by simp [hk']
        have h3 : List.filter (fun p : Row × (Rat × Option Rat) => p.1.key == k)
            [(r, rollingAt (M ++ [r]) w M.length)] = [] := by simp [hk']
        rw [h1, h3]
        simp

theorem keyStats_eq_filter (F : Frame) (w k : Nat) :
    keyStats F w k
      = ((F.rows.zip (rollingStatsList F.rows w)).filter (fun p => p.1.key == k)).map Prod.snd := by
  unfold keyStats calculate_rolling_stats
  simp [List.zip_map']

theorem keyStats_eq_statsSeq (F : Frame) (w k : Nat) :
    keyStats F w k = statsSeq ((F.rows.filter (fun r => r.key == k)).map Row.value) w := by
  rw [keyStats_eq_filter, keyStatsList_eq]

theorem take_filter_eq_dateLe (L : List Row) :
    ∀ (i : Nat) (r : Row), L[i]? = some r → DateSortedPerKey L →
      (L.take (i + 1)).filter (fun x => x.key == r.key) = dateLeRows L r.key r.date := by
  induction L with
  | nil => intro i r hr _; simp at hr
  | cons a t IH =>
      intro i r hr hs
      have hhead := (List.pairwise_cons.mp hs).1
      have hs' : DateSortedPerKey t := (List.pairwise_cons.mp hs).2
      cases i with
      | zero =>
          have ha : a = r := by simpa using hr
          subst ha
          have htf : t.filter (fun x => x.key == a.key && decide (x.date ≤ a.date)) = [] := by
            rw [List.filter_eq_nil_iff]
            intro x hx
            by_cases hkx : x.key = a.key
            · have hd := hhead x hx hkx.symm
              simp [hkx, not_le.mpr hd]
            · simp [hkx]
          have ht : (a :: t).take (0 + 1) = [a] := rfl
          rw [ht]
          unfold dateLeRows
          rw [List.filter_cons, List.filter_cons]
          simp [htf]
      | succ n =>
          have hr' : t[n]? = some r := by simpa using hr
          have hmem : r ∈ t := List.getElem?_mem hr'
          have IH' := IH n r hr' hs'
          unfold dateLeRows at IH' ⊢
          have ht : (a :: t).take (n + 1 + 1) = a :: t.take (n + 1) := rfl
          rw [ht, List.filter_cons, List.filter_cons]
          by_cases hka : a.key = r.key
          · have hda : a.date < r.date := hhead r hmem hka
            simp [hka, le_of_lt hda, IH']
          · simp [hka, IH']

theorem rollingAt_dateSorted (L : List Row) (w i : Nat) (r : Row)
    (hr : L[i]? = some r) (hsorted : DateSortedPerKey L) :
    rollingAt L w i = statsOf (lastN w ((dateLeRows L r.key r.date).map Row.value)) := by
  unfold rollingAt
  rw [hr]
  dsimp only
  unfold keyValsUpTo
  rw [take_filter_eq_dateLe L i r hr hsorted]

theorem calc_cells (L : List Row) (w i : Nat) (hi : i < L.length) :
    (((calculate_rolling_stats (Frame.mk L none none) w).avgCol).getD [])[i]?
        = some (rollingAt L w i).1 ∧
    (((calculate_rolling_stats (Frame.mk L none none) w).stdSqCol).getD [])[i]?
        = some (rollingAt L w i).2 := by
  constructor <;>
    simp [calculate_rolling_stats, rollingStatsList, List.getElem?_range hi]

theorem list_sum_sq_zero : ∀ (l : List Rat), (∀ x ∈ l, 0 ≤ x) → l.sum = 0 → ∀ x ∈ l, x = 0 := by
  intro l
  induction l with
  | nil => intro _ _ x hx; simp at hx
  | cons a t IH =>
      intro h0 hs x hx
      rw [List.sum_cons] at hs
      have ha : 0 ≤ a := h0 a (List.mem_cons_self a t)
      have hts : 0 ≤ t.sum := List.sum_nonneg (fun y hy => h0 y (List.mem_cons_of_mem a hy))
      have ha0 : a = 0 := by linarith
      have ht0 : t.sum = 0 := by linarith
      rcases List.mem_cons.mp hx with h | h
      · rw [h]; exact ha0
      · exact IH (fun y hy => h0 y (List.mem_cons_of_mem a hy)) ht0 x h

theorem sampleVar_zero_eq_mean {l : List Rat} (h : sampleVar l = some 0) :
    ∀ x ∈ l, x = meanList l := by
  intro x hx
  unfold sampleVar at h
  by_cases hlen : l.length ≤ 1
  · rw [if_pos hlen] at h; exact absurd h (by simp)
  · rw [if_neg hlen] at h
    have h' : (l.map (fun y => (y - meanList l) ^ 2)).sum / ((l.length : Rat) - 1) = 0 :=
      Option.some.inj h
    have hlen2 : 2 ≤ l.length := by omega
    have hden : ((l.length : Rat) - 1) ≠ 0 := by
      have h2 : (2 : Rat) ≤ (l.length : Rat) := by exact_mod_cast hlen2
      have hpos : (0 : Rat) < (l.length : Rat) - 1 := by linarith
      exact ne_of_gt hpos
    have hnum : (l.map (fun y => (y - meanList l) ^ 2)).sum = 0 := by
      rcases div_eq_zero_iff.mp h' with h0 | h0
      · exact h0
      · exact absurd h0 hden
    have hsq := list_sum_sq_zero (l.map (fun y => (y - meanList l) ^ 2))
      (by
        intro y hy
        obtain ⟨z, _, rfl⟩ := List.mem_map.mp hy
        positivity)
      hnum ((x - meanList l) ^ 2) (List.mem_map_of_mem _ hx)
    have hx0 : x - meanList l = 0 := by
      have h2 : (2 : Nat) ≠ 0 := by norm_num
      exact pow_eq_zero_iff h2 |>.mp hsq
    linarith

theorem mem_lastN_concat (w : Nat) (xs : List Rat) (v : Rat) (hw : 1 ≤ w) :
    v ∈ lastN w (xs ++ [v]) := by
  unfold lastN
  have h : (xs ++ [v]).length - w ≤ xs.length := by
    simp only [List.length_append, List.length_singleton]
    omega
  rw [List.drop_append_of_le_length h]
  exact List.mem_append.mpr (Or.inr (by simp))

theorem keyValsUpTo_concat (L : List Row) (i : Nat) (r : Row) (hr : L[i]? = some r) :
    keyValsUpTo L r.key i
      = ((L.take i).filter (fun x => x.key == r.key)).map Row.value ++ [r.value] := by
  unfold keyValsUpTo
  rw [List.take_succ, hr]
  simp

end Lemmas

/-- C1 (amended): provided each key's rows arrive in strictly increasing date
order (the discipline the repository's caller establishes by sorting on
`['KEY', 'DATE']`), the rolling mean and rolling standard deviation that
`calculate_rolling_stats` assigns to a row depend only on the same-key rows
dated no later than that row, within the trailing window: two inputs that
contain the row and agree on the last `window` same-key rows with date ≤ that
row's date get identical derived cells there.  Without the sortedness
precondition the windowing is by input order within the key, and the
date-based statement fails (see the counterexample). -/
theorem rolling_stats_date_locality (L1 L2 : List Row) (w i1 i2 : Nat) (r : Row)
    (h1 : L1[i1]? = some r) (h2 : L2[i2]? = some r)
    (hs1 : DateSortedPerKey L1) (hs2 : DateSortedPerKey L2)
    (hagree : lastN w ((dateLeRows L1 r.key r.date).map Row.value)
      = lastN w ((dateLeRows L2 r.key r.date).map Row.value)) :
    rollingAt L1 w i1 = rollingAt L2 w i2 ∧
    (((calculate_rolling_stats (Frame.mk L1 none none) w).avgCol).getD [])[i1]?
      = (((calculate_rolling_stats (Frame.mk L2 none none) w).avgCol).getD [])[i2]? ∧
    (((calculate_rolling_stats (Frame.mk L1 none none) w).stdSqCol).getD [])[i1]?
      = (((calculate_rolling_stats (Frame.mk L2 none none) w).stdSqCol).getD [])[i2]? := by
  have hi1 : i1 < L1.length := (List.getElem?_eq_some_iff.mp h1).1
  have hi2 : i2 < L2.length := (List.getElem?_eq_some_iff.mp h2).1
  have hmain : rollingAt L1 w i1 = rollingAt L2 w i2 := by
    rw [rollingAt_dateSorted L1 w i1 r h1 hs1, rollingAt_dateSorted L2 w i2 r h2 hs2, hagree]
  refine ⟨hmain, ?_, ?_⟩
  · rw [(calc_cells L1 w i1 hi1).1, (calc_cells L2 w i2 hi2).1, hmain]
  · rw [(calc_cells L1 w i1 hi1).2, (calc_cells L2 w i2 hi2).2, hmain]

/-- Witness for C1 (amended) at a concrete input: the row `(key 0, date 2,
value 7)` sits at index 1 of the first list and index 2 of the second; both
lists are date-sorted per key and agree on the key-0 rows dated ≤ 2, so the
derived cells coincide. -/
theorem rolling_stats_date_locality_witness :
    (([Row.mk 0 1 5, Row.mk 0 2 7] : List Row)[1]? = some (Row.mk 0 2 7)) ∧
    rollingAt [Row.mk 0 1 5, Row.mk 0 2 7] 7 1
      = rollingAt [Row.mk 1 1 3, Row.mk 0 1 5, Row.mk 0 2 7] 7 2 :=
  ⟨rfl,
    (rolling_stats_date_locality [Row.mk 0 1 5, Row.mk 0 2 7]
      [Row.mk 1 1 3, Row.mk 0 1 5, Row.mk 0 2 7] 7 1 2 (Row.mk 0 2 7) rfl rfl
      (by simp [DateSortedPerKey]) (by simp [DateSortedPerKey]) rfl).1⟩

/-- C1 counterexample: `calculate_rolling_stats` does not sort by date, so on
unsorted input the baseline at a row is influenced by a future-dated row of
the same key.  The two inputs below agree on every key-0 row dated ≤ 1 (and
index 1 holds the same row in both), yet the rolling mean written at index 1
(the date-1 row) is 50 in one and 0 in the other — it depends on the
later-dated row that precedes it in input order. -/
theorem rolling_stats_future_leak_counterexample :
    dateLeRows [Row.mk 0 2 100, Row.mk 0 1 0] 0 1
      = dateLeRows [Row.mk 0 2 0, Row.mk 0 1 0] 0 1 ∧
    ([Row.mk 0 2 100, Row.mk 0 1 0] : List Row)[1]? = some (Row.mk 0 1 0) ∧
    ([Row.mk 0 2 0, Row.mk 0 1 0] : List Row)[1]? = some (Row.mk 0 1 0) ∧
    (((calculate_rolling_stats
        (Frame.mk [Row.mk 0 2 100, Row.mk 0 1 0] none none) 7).avgCol).getD [])[1]?
      = some 50 ∧
    (((calculate_rolling_stats
        (Frame.mk [Row.mk 0 2 0, Row.mk 0 1 0] none none) 7).avgCol).getD [])[1]?
      = some 0 := by
  refine ⟨rfl, rfl, rfl, ?_, ?_⟩ <;>
    norm_num [calculate_rolling_stats, rollingStatsList, rollingAt, keyValsUpTo, statsOf,
      meanList, sampleVar, lastN, List.range_succ]

/-- C5: two-run noninterference across keys — if two inputs agree on the rows
of key `k` (and differ arbitrarily on rows of other keys), then
`calculate_rolling_stats` attaches identical rolling mean / rolling standard
deviation cells to every row of key `k`. -/
theorem rolling_stats_no_cross_key_leakage (F1 F2 : Frame) (w k : Nat)
    (h : F1.rows.filter (fun r => r.key == k) = F2.rows.filter (fun r => r.key == k)) :
    keyStats F1 w k = keyStats F2 w k := by
  rw [keyStats_eq_statsSeq, keyStats_eq_statsSeq, h]

/-- Witness for C5: key `A = 0` with values `[10, 10, 10]` interleaved by date
with key `B = 1` at `[1000, 1000, 1000]` gets exactly the stats it gets when
run alone. -/
theorem rolling_stats_no_cross_key_leakage_witness :
    ((Frame.mk [Row.mk 0 1 10, Row.mk 1 1 1000, Row.mk 0 2 10, Row.mk 1 2 1000,
        Row.mk 0 3 10, Row.mk 1 3 1000] none none).rows.filter (fun r => r.key == 0)
      = (Frame.mk [Row.mk 0 1 10, Row.mk 0 2 10, Row.mk 0 3 10] none none).rows.filter
          (fun r => r.key == 0)) ∧
    keyStats (Frame.mk [Row.mk 0 1 10, Row.mk 1 1 1000, Row.mk 0 2 10, Row.mk 1 2 1000,
        Row.mk 0 3 10, Row.mk 1 3 1000] none none) 7 0
      = keyStats (Frame.mk [Row.mk 0 1 10, Row.mk 0 2 10, Row.mk 0 3 10] none none) 7 0 :=
  ⟨rfl,
    rolling_stats_no_cross_key_leakage
      (Frame.mk [Row.mk 0 1 10, Row.mk 1 1 1000, Row.mk 0 2 10, Row.mk 1 2 1000,
        Row.mk 0 3 10, Row.mk 1 3 1000] none none)
      (Frame.mk [Row.mk 0 1 10, Row.mk 0 2 10, Row.mk 0 3 10] none none) 7 0 rfl⟩

/-- C6: for a single key whose date-ordered values are `[10, 20, 30, 40]`,
`calculate_rolling_stats` with window 7 (min periods 1) writes rolling mean
10 at index 0, 15 at index 1 and 25 at index 3, and the rolling standard
deviation at index 0 is undefined (`NaN`, modelled `none` — in particular not
a finite positive number). -/
theorem rolling_window_example :
    (((calculate_rolling_stats (Frame.mk [Row.mk 0 1 10, Row.mk 0 2 20, Row.mk 0 3 30,
        Row.mk 0 4 40] none none) 7).avgCol).getD [])[0]? = some 10 ∧
    (((calculate_rolling_stats (Frame.mk [Row.mk 0 1 10, Row.mk 0 2 20, Row.mk 0 3 30,
        Row.mk 0 4 40] none none) 7).avgCol).getD [])[1]? = some 15 ∧
    (((calculate_rolling_stats (Frame.mk [Row.mk 0 1 10, Row.mk 0 2 20, Row.mk 0 3 30,
        Row.mk 0 4 40] none none) 7).avgCol).getD [])[3]? = some 25 ∧
    (((calculate_rolling_stats (Frame.mk [Row.mk 0 1 10, Row.mk 0 2 20, Row.mk 0 3 30,
        Row.mk 0 4 40] none none) 7).stdSqCol).getD [])[0]? = some none := by
  refine ⟨?_, ?_, ?_, ?_⟩ <;>
    norm_num [calculate_rolling_stats, rollingStatsList, rollingAt, keyValsUpTo, statsOf,
      meanList, sampleVar, lastN, List.range_succ]

/-- C9: running `calculate_rolling_stats` twice with the same metric column
and window equals running it once (the second run recomputes from the raw
rows and overwrites the same derived columns), and no run changes the raw,
non-derived columns. -/
theorem rolling_stats_idempotent (F : Frame) (w : Nat) :
    calculate_rolling_stats (calculate_rolling_stats F w) w = calculate_rolling_stats F w ∧
    (calculate_rolling_stats F w).rows = F.rows :=
  ⟨rfl, rfl⟩

/-- C8: with `today` fixed at `t`, `filter_last_week` retains exactly the
callouts dated in the inclusive interval `[t−7, t−1]`, and `add_buffer_days`
with buffer `b` retains exactly those dated in `[t−(b+7), t−b]`.  The closing
conjunct checks the spec's concrete instance (dates written as `yyyymmdd`
numbers, consistent within June 2024): for `t` = 2024‑06‑15, 2024‑06‑08 and
2024‑06‑14 are kept while 2024‑06‑15 and 2024‑06‑07 are dropped. -/
theorem window_filters_inclusive (st : State) (today b : Int) (x : Callout) :
    (x ∈ (filter_last_week st today).callouts_df.rows ↔
      x ∈ st.callouts_df.rows ∧ today - 7 ≤ x.date ∧ x.date ≤ today - 1) ∧
    (x ∈ (add_buffer_days st today b).callouts_df.rows ↔
      x ∈ st.callouts_df.rows ∧ today - (b + 7) ≤ x.date ∧ x.date ≤ today - b) ∧
    (filter_last_week (State.mk (Frame.mk [] none none) (CalloutsDf.mk initColumns
        [Callout.mk 0 20240608 "" "" "" "" none, Callout.mk 0 20240614 "" "" "" "" none,
         Callout.mk 0 20240615 "" "" "" "" none, Callout.mk 0 20240607 "" "" "" "" none]))
        20240615).callouts_df.rows
      = [Callout.mk 0 20240608 "" "" "" "" none, Callout.mk 0 20240614 "" "" "" "" none] := by
  refine ⟨?_, ?_, rfl⟩
  · simp [filter_last_week, List.mem_filter, and_assoc]
  · simp [add_buffer_days, List.mem_filter, and_assoc]

/-- C3: a row whose rolling standard deviation is undefined (`NaN`, e.g. the
single-row window at the start of a key's series) or exactly zero is never
selected by the spike or the drop mask, and the checks on a frame with
computed stats raise no error (they return `ok`): such rows are always
non-violating.  A zero sample standard deviation forces every window value —
in particular the row's own value, the last window element — to equal the
window mean, so neither strict comparison can fire; a `NaN` cell compares
false. -/
theorem degenerate_std_non_violating (F : Frame) (cdf : CalloutsDf) (col : String)
    (w i : Nat) (t : Rat) (r : Row) (hr : F.rows[i]? = some r)
    (hdeg : (rollingAt F.rows w i).2 = none ∨ (rollingAt F.rows w i).2 = some 0) :
    spikeCond r.value (rollingAt F.rows w i).1 (rollingAt F.rows w i).2 t = false ∧
    dropCond r.value (rollingAt F.rows w i).1 (rollingAt F.rows w i).2 t = false ∧
    (∃ st', check_spike_in_column (State.mk (calculate_rolling_stats F w) cdf) col t
        = Except.ok st') ∧
    (∃ st', check_drop_in_column (State.mk (calculate_rolling_stats F w) cdf) col t
        = Except.ok st') := by
  have hrw : rollingAt F.rows w i
      = (meanList (lastN w (keyValsUpTo F.rows r.key i)),
         sampleVar (lastN w (keyValsUpTo F.rows r.key i))) := by
    unfold rollingAt
    rw [hr]
    rfl
  rcases hdeg with hnone | hzero
  · have hnone' : sampleVar (lastN w (keyValsUpTo F.rows r.key i)) = none := by
      rw [hrw] at hnone; exact hnone
    rw [hrw]
    exact ⟨by simp [spikeCond, hnone'], by simp [dropCond, hnone'], ⟨_, rfl⟩, ⟨_, rfl⟩⟩
  · have hzero' : sampleVar (lastN w (keyValsUpTo F.rows r.key i)) = some 0 := by
      rw [hrw] at hzero; exact hzero
    have hw1 : 1 ≤ w := by
      by_contra hw
      have hw0 : w = 0 := by omega
      rw [hw0] at hzero'
      unfold lastN at hzero'
      rw [Nat.sub_zero, List.drop_length] at hzero'
      simp [sampleVar] at hzero'
    have hmem : r.value ∈ lastN w (keyValsUpTo F.rows r.key i) := by
      rw [keyValsUpTo_concat F.rows i r hr]
      exact mem_lastN_concat w _ r.value hw1
    have hv : r.value = meanList (lastN w (keyValsUpTo F.rows r.key i)) :=
      sampleVar_zero_eq_mean hzero' _ hmem
    rw [hrw]
    refine ⟨?_, ?_, ⟨_, rfl⟩, ⟨_, rfl⟩⟩ <;>
      simp [spikeCond, dropCond, hzero', ← hv]

/-- Witness for C3: a one-row series; its window has a single observation, so
the stored standard deviation is `NaN` (`none`) and the spike mask is false at
that row. -/
theorem degenerate_std_non_violating_witness :
    (([Row.mk 0 1 10] : List Row)[0]? = some (Row.mk 0 1 10)) ∧
    ((rollingAt ([Row.mk 0 1 10] : List Row) 7 0).2 = none) ∧
    spikeCond (Row.mk 0 1 10).value (rollingAt ([Row.mk 0 1 10] : List Row) 7 0).1
      (rollingAt ([Row.mk 0 1 10] : List Row) 7 0).2 2 = false :=
  ⟨rfl, rfl,
    (degenerate_std_non_violating (Frame.mk [Row.mk 0 1 10] none none)
      _initialize_callouts_df "amount" 7 0 2 (Row.mk 0 1 10) rfl (Or.inl rfl)).1⟩

/-- C2: the spike mask is the strict comparison
`value > rolling_mean + threshold * rolling_std` and the drop mask the strict
`value < rolling_mean − threshold * rolling_std` (proved against the
real-valued comparison with `Real.sqrt` of the stored variance, for any
nonnegative threshold); at rolling_mean 10, rolling_std 2 (variance 4) and
threshold 2, value 14 is not flagged while 14.01 is (and symmetrically 6 is
not a drop while 5.99 is); and each check appends a callout for exactly the
rows its mask selects. -/
theorem spike_drop_strict_and_boundary (v m s t : Rat) (ht : 0 ≤ t) :
    (spikeCond v m (some s) t = true ↔
      (m : Real) + (t : Real) * Real.sqrt (s : Real) < (v : Real)) ∧
    (dropCond v m (some s) t = true ↔
      (v : Real) < (m : Real) - (t : Real) * Real.sqrt (s : Real)) ∧
    spikeCond v m none t = false ∧
    spikeCond 14 10 (some 4) 2 = false ∧
    spikeCond (1401 / 100) 10 (some 4) 2 = true ∧
    dropCond 6 10 (some 4) 2 = false ∧
    dropCond (599 / 100) 10 (some 4) 2 = true ∧
    (∀ (F : Frame) (cdf : CalloutsDf) (col : String)
        (ps : List (Row × (Rat × Option Rat))), statPairs F = some ps →
      check_spike_in_column (State.mk F cdf) col t
          = Except.ok (State.mk F (CalloutsDf.mk (unionCols cdf.columns initColumns)
              (cdf.rows ++ ((ps.filter (fun p => spikeCond p.1.value p.2.1 p.2.2 t)).map
                (mkSpikeCallout col t))))) ∧
      check_drop_in_column (State.mk F cdf) col t
          = Except.ok (State.mk F (CalloutsDf.mk (unionCols cdf.columns initColumns)
              (cdf.rows ++ ((ps.filter (fun p => dropCond p.1.value p.2.1 p.2.2 t)).map
                (mkDropCallout col t)))))) := by
  have htn : (0 : Real) ≤ (t : Real) := by exact_mod_cast ht
  refine ⟨?_, ?_, rfl, by norm_num [spikeCond], by norm_num [spikeCond],
    by norm_num [dropCond], by norm_num [dropCond], ?_⟩
  · simp only [spikeCond, Bool.and_eq_true, decide_eq_true_eq]
    constructor
    · rintro ⟨h1, h2⟩
      have h1' : (m : Real) < (v : Real) := by exact_mod_cast h1
      have h2' : (t : Real) ^ 2 * (s : Real) < ((v : Real) - (m : Real)) ^ 2 := by
        exact_mod_cast h2
      rcases le_or_lt 0 (s : Real) with hs | hs
      · have hsq : Real.sqrt (s : Real) ^ 2 = (s : Real) := Real.sq_sqrt hs
        have hsn : (0 : Real) ≤ Real.sqrt (s : Real) := Real.sqrt_nonneg _
        have hkey : ((t : Real) * Real.sqrt (s : Real)) ^ 2 < ((v : Real) - (m : Real)) ^ 2 := by
          rw [mul_pow, hsq]; exact h2'
        have hlt : (t : Real) * Real.sqrt (s : Real) < (v : Real) - (m : Real) :=
          lt_of_pow_lt_pow_left₀ 2 (by linarith) hkey
        linarith
      · rw [Real.sqrt_eq_zero_of_nonpos (le_of_lt hs)]
        linarith
    · intro h
      rcases le_or_lt 0 (s : Real) with hs | hs
      · have hsq : Real.sqrt (s : Real) ^ 2 = (s : Real) := Real.sq_sqrt hs
        have hsn : (0 : Real) ≤ Real.sqrt (s : Real) := Real.sqrt_nonneg _
        have h1' : (m : Real) < (v : Real) := by nlinarith
        have hlt : (t : Real) * Real.sqrt (s : Real) < (v : Real) - (m : Real) := by linarith
        have hkey : ((t : Real) * Real.sqrt (s : Real)) ^ 2 < ((v : Real) - (m : Real)) ^ 2 :=
          pow_lt_pow_left₀ hlt (mul_nonneg htn hsn) (by norm_num)
        refine ⟨by exact_mod_cast h1', ?_⟩
        have h2' : (t : Real) ^ 2 * (s : Real) < ((v : Real) - (m : Real)) ^ 2 := by
          rw [← hsq, ← mul_pow]; exact hkey
        exact_mod_cast h2'
      · have hs' : s < 0 := by exact_mod_cast hs
        have h0 : Real.sqrt (s : Real) = 0 := Real.sqrt_eq_zero_of_nonpos (le_of_lt hs)
        rw [h0] at h
        have h1 : m < v := by
          have h1' : (m : Real) < (v : Real) := by linarith
          exact_mod_cast h1'
        refine ⟨h1, ?_⟩
        have hts : t ^ 2 * s ≤ 0 :=
          mul_nonpos_of_nonneg_of_nonpos (sq_nonneg t) (le_of_lt hs')
        have hvm : (0 : Rat) < (v - m) ^ 2 := pow_pos (by linarith) 2
        linarith
  · simp only [dropCond, Bool.and_eq_true, decide_eq_true_eq]
    constructor
    · rintro ⟨h1, h2⟩
      have h1' : (v : Real) < (m : Real) := by exact_mod_cast h1
      have h2' : (t : Real) ^ 2 * (s : Real) < ((m : Real) - (v : Real)) ^ 2 := by
        exact_mod_cast h2
      rcases le_or_lt 0 (s : Real) with hs | hs
      · have hsq : Real.sqrt (s : Real) ^ 2 = (s : Real) := Real.sq_sqrt hs
        have hsn : (0 : Real) ≤ Real.sqrt (s : Real) := Real.sqrt_nonneg _
        have hkey : ((t : Real) * Real.sqrt (s : Real)) ^ 2 < ((m : Real) - (v : Real)) ^ 2 := by
          rw [mul_pow, hsq]; exact h2'
        have hlt : (t : Real) * Real.sqrt (s : Real) < (m : Real) - (v : Real) :=
          lt_of_pow_lt_pow_left₀ 2 (by linarith) hkey
        linarith
      · rw [Real.sqrt_eq_zero_of_nonpos (le_of_lt hs)]
        linarith
    · intro h
      rcases le_or_lt 0 (s : Real) with hs | hs
      · have hsq : Real.sqrt (s : Real) ^ 2 = (s : Real) := Real.sq_sqrt hs
        have hsn : (0 : Real) ≤ Real.sqrt (s : Real) := Real.sqrt_nonneg _
        have h1' : (v : Real) < (m : Real) := by nlinarith
        have hlt : (t : Real) * Real.sqrt (s : Real) < (m : Real) - (v : Real) := by linarith
        have hkey : ((t : Real) * Real.sqrt (s : Real)) ^ 2 < ((m : Real) - (v : Real)) ^ 2 :=
          pow_lt_pow_left₀ hlt (mul_nonneg htn hsn) (by norm_num)
        refine ⟨by exact_mod_cast h1', ?_⟩
        have h2' : (t : Real) ^ 2 * (s : Real) < ((m : Real) - (v : Real)) ^ 2 := by
          rw [← hsq, ← mul_pow]; exact hkey
        exact_mod_cast h2'
      · have hs' : s < 0 := by exact_mod_cast hs
        have h0 : Real.sqrt (s : Real) = 0 := Real.sqrt_eq_zero_of_nonpos (le_of_lt hs)
        rw [h0] at h
        have h1 : v < m := by
          have h1' : (v : Real) < (m : Real) := by linarith
          exact_mod_cast h1'
        refine ⟨h1, ?_⟩
        have hts : t ^ 2 * s ≤ 0 :=
          mul_nonpos_of_nonneg_of_nonpos (sq_nonneg t) (le_of_lt hs')
        have hvm : (0 : Rat) < (m - v) ^ 2 := pow_pos (by linarith) 2
        linarith
  · intro F cdf col ps hps
    constructor
    · unfold check_spike_in_column
      dsimp only
      rw [hps]
    · unfold check_drop_in_column
      dsimp only
      rw [hps]

/-- Witness for C2 at the spec's boundary instance: threshold 2 is
nonnegative, value 14 is not flagged, value 14.01 is. -/
theorem spike_drop_strict_and_boundary_witness :
    (0 : Rat) ≤ 2 ∧ spikeCond 14 10 (some 4) 2 = false ∧
      spikeCond (1401 / 100) 10 (some 4) 2 = true :=
  ⟨by norm_num, (spike_drop_strict_and_boundary 14 10 4 2 (by norm_num)).2.2.2.1,
    (spike_drop_strict_and_boundary 14 10 4 2 (by norm_num)).2.2.2.2.1⟩

/-- C4: `check_condition_in_column` with any operator other than `>` or `<`
raises a `ValueError` and leaves the accumulated callouts untouched (the
exception fires before any state change, so the post-call state equals the
pre-call state); with `>` (resp. `<`) it appends a callout for exactly the
rows whose metric value is strictly above (resp. below) the threshold, and
every appended record carries no `std_devs_away` value. -/
theorem condition_check_operator (st : State) (col c : String) (thr : Rat)
    (hc : c ≠ ">" ∧ c ≠ "<") :
    check_condition_in_column st col c thr
        = Except.error "Condition must be either > or <." ∧
    runOp st (Op.cond col c thr) = st ∧
    (∃ st', check_condition_in_column st col ">" thr = Except.ok st' ∧
      st'.callouts_df.rows = st.callouts_df.rows ++
        ((st.df_grouped.rows.filter (fun r => decide (thr < r.value))).map
          (mkCondCallout col ("> " ++ format_number thr))) ∧
      ∀ x ∈ ((st.df_grouped.rows.filter (fun r => decide (thr < r.value))).map
          (mkCondCallout col ("> " ++ format_number thr))), x.std_devs_away = none) ∧
    (∃ st', check_condition_in_column st col "<" thr = Except.ok st' ∧
      st'.callouts_df.rows = st.callouts_df.rows ++
        ((st.df_grouped.rows.filter (fun r => decide (r.value < thr))).map
          (mkCondCallout col ("< " ++ format_number thr))) ∧
      ∀ x ∈ ((st.df_grouped.rows.filter (fun r => decide (r.value < thr))).map
          (mkCondCallout col ("< " ++ format_number thr))), x.std_devs_away = none) := by
  have herr : check_condition_in_column st col c thr
      = Except.error "Condition must be either > or <." := by
    unfold check_condition_in_column
    rw [if_neg hc.1, if_neg hc.2]
  refine ⟨herr, ?_, ?_, ?_⟩
  · simp only [runOp, herr]
  · refine ⟨_, rfl, rfl, ?_⟩
    intro x hx
    obtain ⟨r, _, rfl⟩ := List.mem_map.mp hx
    rfl
  · refine ⟨State.mk st.df_grouped
        (CalloutsDf.mk (unionCols st.callouts_df.columns condColumns)
          (st.callouts_df.rows ++
            ((st.df_grouped.rows.filter (fun r => decide (r.value < thr))).map
              (mkCondCallout col ("< " ++ format_number thr))))), ?_, rfl, ?_⟩
    · unfold check_condition_in_column
      rw [if_neg (by decide : ¬("<" : String) = ">"), if_pos rfl]
    · intro x hx
      obtain ⟨r, _, rfl⟩ := List.mem_map.mp hx
      rfl

/-- Witness for C4 at the spec's instance: the operator `=` is neither `>`
nor `<`, and the call errors out. -/
theorem condition_check_operator_witness :
    (("=" : String) ≠ ">" ∧ ("=" : String) ≠ "<") ∧
    check_condition_in_column (CalloutSystem []) "amount" "=" 5
      = Except.error "Condition must be either > or <." :=
  ⟨⟨by decide, by decide⟩,
    (condition_check_operator (CalloutSystem []) "amount" "=" 5 ⟨by decide, by decide⟩).1⟩

theorem devLe_total (a b : Option Rat) : devLe a b = true ∨ devLe b a = true := by
  cases a <;> cases b <;> simp [devLe, le_total]

theorem devLe_trans {a b c : Option Rat} (h1 : devLe a b = true) (h2 : devLe b c = true) :
    devLe a c = true := by
  cases a <;> cases b <;> cases c <;> simp_all [devLe]
  exact le_trans h1 h2

instance : IsTotal Callout CalloutR where
  total a b := by
    unfold CalloutR calloutLe
    rcases lt_trichotomy a.date b.date with h | h | h
    · right
      simp [h]
    · rcases devLe_total a.std_devs_away b.std_devs_away with hd | hd
      · left
        simp [h, hd]
      · right
        simp [h, hd]
    · left
      simp [h]

instance : IsTrans Callout CalloutR where
  trans a b c hab hbc := by
    unfold CalloutR calloutLe at hab hbc ⊢
    simp only [Bool.or_eq_true, Bool.and_eq_true, decide_eq_true_eq] at hab hbc ⊢
    rcases hab with h1 | ⟨h1, hd1⟩ <;> rcases hbc with h2 | ⟨h2, hd2⟩
    · exact Or.inl (lt_trans h2 h1)
    · exact Or.inl (h2 ▸ h1)
    · exact Or.inl (by rw [h1]; exact h2)
    · exact Or.inr ⟨h1.trans h2, devLe_trans hd1 hd2⟩

/-- C7: when the accumulated callouts carry both a `date` and a
`std_devs_away` column (as the constructed schema always does),
`get_callouts` returns exactly the accumulated records — a permutation, none
added or dropped — sorted by date descending and, within a date, by
`std_devs_away` ascending; on the spec's concrete triple the order is
(01‑02, 1.0), (01‑02, 3.0), (01‑01, 5.0). -/
theorem get_callouts_sort_contract (c : CalloutsDf)
    (h1 : "date" ∈ c.columns) (h2 : "std_devs_away" ∈ c.columns) :
    (get_callouts c).columns = c.columns ∧
    List.Perm (get_callouts c).rows c.rows ∧
    List.Sorted CalloutR (get_callouts c).rows ∧
    (get_callouts (CalloutsDf.mk initColumns
        [Callout.mk 1 20240102 "" "" "" "" (some 3),
         Callout.mk 2 20240102 "" "" "" "" (some 1),
         Callout.mk 3 20240101 "" "" "" "" (some 5)])).rows
      = [Callout.mk 2 20240102 "" "" "" "" (some 1),
         Callout.mk 1 20240102 "" "" "" "" (some 3),
         Callout.mk 3 20240101 "" "" "" "" (some 5)] := by
  unfold get_callouts
  rw [if_pos h1, if_pos h2]
  refine ⟨rfl, List.perm_insertionSort _ _, List.sorted_insertionSort _ _, ?_⟩
  norm_num [List.insertionSort, List.orderedInsert, CalloutR, calloutLe, devLe, initColumns]

/-- Witness for C7: the constructed schema contains both sort columns, and
the sorted output of a concrete one-record frame is sorted. -/
theorem get_callouts_sort_contract_witness :
    ("date" ∈ initColumns) ∧ ("std_devs_away" ∈ initColumns) ∧
    List.Sorted CalloutR (get_callouts (CalloutsDf.mk initColumns
        [Callout.mk 1 20240102 "" "" "" "" (some 3)])).rows :=
  ⟨by decide, by decide,
    (get_callouts_sort_contract (CalloutsDf.mk initColumns
        [Callout.mk 1 20240102 "" "" "" "" (some 3)])
      (by decide) (by decide)).2.2.1⟩

theorem unionCols_init_init : unionCols initColumns initColumns = initColumns := by decide

theorem unionCols_init_cond : unionCols initColumns condColumns = initColumns := by decide

theorem runOp_columns (st : State) (op : Op)
    (h : st.callouts_df.columns = initColumns) :
    (runOp st op).callouts_df.columns = initColumns := by
  cases op with
  | calcRolling w => simpa using h
  | spike col t =>
      unfold runOp check_spike_in_column
      cases hp : statPairs st.df_grouped with
      | none => simpa using h
      | some ps => simpa [h] using unionCols_init_init
  | drop col t =>
      unfold runOp check_drop_in_column
      cases hp : statPairs st.df_grouped with
      | none => simpa using h
      | some ps => simpa [h] using unionCols_init_init
  | cond col c t =>
      unfold runOp check_condition_in_column
      by_cases h1 : c = ">"
      · simpa [h1, h] using unionCols_init_cond
      · by_cases h2 : c = "<"
        · simpa [h1, h2, h] using unionCols_init_cond
        · simpa [h1, h2] using h
  | lastWeek today => simpa [runOp, filter_last_week] using h
  | buffer today b => simpa [runOp, add_buffer_days] using h

theorem runOps_columns (ops : List Op) (st : State)
    (h : st.callouts_df.columns = initColumns) :
    (runOps st ops).callouts_df.columns = initColumns := by
  induction ops generalizing st with
  | nil => simpa [runOps] using h
  | cons op rest IH =>
      have hstep := runOp_columns st op h
      simpa [runOps] using IH (runOp st op) hstep

/-- C10: from construction on, through any sequence of public operations
(rolling-stats computation, spike/drop/absolute checks — including failed
ones — and the two window filters), the accumulated callouts dataframe keeps
exactly the seven constructed columns; in particular `date` and
`std_devs_away` are always present, so `get_callouts` always takes the
sort-by-date-then-deviation branch — the date-only and `metric` branches are
unreachable through the public interface. -/
theorem callouts_schema_invariant (rows : List Row) (ops : List Op) :
    (runOps (CalloutSystem rows) ops).callouts_df.columns = initColumns ∧
    "date" ∈ (runOps (CalloutSystem rows) ops).callouts_df.columns ∧
    "std_devs_away" ∈ (runOps (CalloutSystem rows) ops).callouts_df.columns ∧
    get_callouts ((runOps (CalloutSystem rows) ops).callouts_df)
      = CalloutsDf.mk ((runOps (CalloutSystem rows) ops).callouts_df.columns)
          (List.insertionSort CalloutR ((runOps (CalloutSystem rows) ops).callouts_df.rows)) := by
  have hc : (runOps (CalloutSystem rows) ops).callouts_df.columns = initColumns :=
    runOps_columns ops (CalloutSystem rows) rfl
  have hd : "date" ∈ (runOps (CalloutSystem rows) ops).callouts_df.columns := by
    rw [hc]; decide
  have hsd : "std_devs_away" ∈ (runOps (CalloutSystem rows) ops).callouts_df.columns := by
    rw [hc]; decide
  refine ⟨hc, hd, hsd, ?_⟩
  unfold get_callouts
  rw [if_pos hd, if_pos hsd]

end LifeTracker
